import Mathlib

/-!
Verification of the URL-Indexation-Checker backend core.

Shallow embedding of:
  * `IndexationService.isValidURL` / `checkIndexation` / `checkMultipleURLs`
    (src/services/indexation.service.js)
  * the check cycle of `URLController.checkAllURLs` / `performScheduledCheck`
    (src/controllers/url.controller.js, src/config/scheduler.js)
  * `URLModel.readAllURLs` / `writeAllURLs` (model code in src/README.md)
  * `URLController.uploadCSV` (src/config/scheduler.js, second part)

External collaborators (the WHATWG URL parser of the JS runtime, the network,
the CSV libraries) are modelled as parameters or as structured values: the
parser as a function `String → ParseResult`, one HTTP exchange as an
`HttpOutcome`, the persisted CSV table as a list of parsed rows.
-/

/-- Result of calling `new URL(candidate)` in the JS runtime: either a parse failure
(the constructor throws) or a parsed object, of which `isValidURL` inspects
only `protocol` (scheme including the trailing colon, e.g. `"http:"`) and
`hostname`. -/
inductive ParseResult where
  | fail
  | ok (protocol : String) (hostname : String)
deriving DecidableEq

/-- A JavaScript `Error` as inspected by the `catch` block of
`checkIndexation`: an optional `code` property and a `message`. -/
structure JsError where
  code : Option String
  message : String
deriving DecidableEq

/-- Outcome of `axios.get(url, {validateStatus: s < 500, ...})`: either a
response carrying a status code, or a thrown error. -/
inductive HttpOutcome where
  | resp (status : Nat)
  | raise (e : JsError)
deriving DecidableEq

/-- The `{status, notes}` object returned by `checkIndexation`. -/
structure CheckResult where
  status : String
  notes : String
deriving DecidableEq

/-- A record of the URL table, as produced by the default-filling of
`readAllURLs` and consumed by the prober and the controllers. -/
structure URLRecord where
  url : String
  status : String
  lastChecked : String
  notes : String
deriving DecidableEq

/-- One element of the result list of `checkMultipleURLs`:
`{url, status, notes}`. -/
structure NamedResult where
  url : String
  status : String
  notes : String
deriving DecidableEq

/-- `sub.data` occurs as a contiguous run inside `s.data`: JavaScript
`s.includes(sub)`. -/
def includesSub (s sub : String) : Bool :=
  s.data.tails.any fun t => sub.data.isPrefixOf t

/-- JavaScript `s.substring(0, n)`: the first `n` characters of `s` (all of
`s` when it is shorter). -/
def jsSubstring (s : String) (n : Nat) : String :=
  String.mk (s.data.take n)

/-- JavaScript `s.trim()`: strip leading and trailing whitespace. -/
def jsTrim (s : String) : String :=
  String.mk (((s.data.dropWhile Char.isWhitespace).reverse.dropWhile
    Char.isWhitespace).reverse)

/-- JavaScript `a || b` on string-valued properties that may be `undefined`
(`none`): `undefined` and the empty string are falsy. -/
def jsOr (a b : Option String) : Option String :=
  match a with
  | none => b
  | some s => if s = "" then b else some s

/-- JavaScript `a || d` where the final alternative `d` is a string literal
default. -/
def jsOrDefault (a : Option String) (d : String) : String :=
  match a with
  | none => d
  | some s => if s = "" then d else s

/-- `IndexationService.isValidURL` (indexation.service.js:18-33), with the
runtime URL parser passed in as `parse`: false on parse failure; false unless
the protocol is `http:` or `https:`; false when the hostname is empty
(falsy) or contains a space; true otherwise. -/
def isValidURL (parse : String → ParseResult) (url : String) : Bool :=
  match parse url with
  | .fail => false
  | .ok protocol hostname =>
    if !(protocol == "http:" || protocol == "https:") then false
    else if hostname == "" || hostname.data.contains ' ' then false
    else true

/-- Step 3 of `checkIndexation` (indexation.service.js:60-89): classification
of a delivered response by its status code. -/
def classifyResponse (s : Nat) : CheckResult :=
  if s = 200 then
    ⟨"Indexed", "HTTP " ++ toString s ++ " - Page accessible"⟩
  else if s = 404 then
    ⟨"Not Indexed", "HTTP 404 - Page not found"⟩
  else if s = 403 then
    ⟨"Not Indexed", "HTTP 403 - Access forbidden"⟩
  else if s ≥ 400 then
    ⟨"Not Indexed", "HTTP " ++ toString s ++ " - Client error"⟩
  else
    ⟨"Not Indexed", "HTTP " ++ toString s ++ " - Unusual status"⟩

/-- The `catch` block of `checkIndexation` (indexation.service.js:90-118):
classification of a thrown error. -/
def handleError (e : JsError) : CheckResult :=
  if e.code = some "ENOTFOUND" then
    ⟨"Invalid URL", "DNS not found - Domain does not exist"⟩
  else if e.code = some "ETIMEDOUT" || includesSub e.message "timeout" then
    ⟨"Not Indexed", "Connection timeout"⟩
  else if e.code = some "ECONNREFUSED" then
    ⟨"Invalid URL", "Connection refused"⟩
  else if includesSub e.message "Invalid URL" then
    ⟨"Invalid URL", "Malformed URL"⟩
  else
    ⟨"Not Indexed", "Error: " ++ jsSubstring e.message 50⟩

/-- The `try` body of `checkIndexation`: `await axios.get` either yields a
response, which is then classified, or throws. -/
def tryBlock (out : HttpOutcome) : Except JsError CheckResult :=
  match out with
  | .resp s => .ok (classifyResponse s)
  | .raise e => .error e

/-- `IndexationService.checkIndexation` (indexation.service.js:38-119) for
one HTTP exchange `out`: guard on `isValidURL`, then the `try` body with its
`catch` handler. The `Except` codomain records whether an exception escapes
the method. -/
def checkIndexation (parse : String → ParseResult) (url : String)
    (out : HttpOutcome) : Except JsError CheckResult :=
  if !(isValidURL parse url) then
    .ok ⟨"Invalid URL", "Invalid URL format"⟩
  else
    match tryBlock out with
    | .ok r => .ok r
    | .error e => .ok (handleError e)

/-- The value `checkIndexation` settles with (it never escapes with an
error; see `checkIndexation_eq_ok`). -/
def checkValue (parse : String → ParseResult) (url : String)
    (out : HttpOutcome) : CheckResult :=
  match checkIndexation parse url out with
  | .ok r => r
  | .error e => handleError e

/-- `IndexationService.checkMultipleURLs` (indexation.service.js:124-141):
strictly sequential loop over the input records; the call made at loop
position `i` observes the HTTP exchange `net i`. An exception from
`checkIndexation` (were one possible) would propagate out of the loop. -/
def checkMultipleURLs (parse : String → ParseResult) (net : Nat → HttpOutcome)
    (i : Nat) : List URLRecord → Except JsError (List NamedResult)
  | [] => .ok []
  | u :: rest =>
    match checkIndexation parse u.url (net i) with
    | .error e => .error e
    | .ok r =>
      match checkMultipleURLs parse net (i + 1) rest with
      | .error e => .error e
      | .ok rs => .ok (⟨u.url, r.status, r.notes⟩ :: rs)

/-- The value list `checkMultipleURLs` settles with
(see `checkMultipleURLs_eq_ok`). -/
def resultsFrom (parse : String → ParseResult) (net : Nat → HttpOutcome)
    (i : Nat) : List URLRecord → List NamedResult
  | [] => []
  | u :: rest =>
    ⟨u.url, (checkValue parse u.url (net i)).status,
      (checkValue parse u.url (net i)).notes⟩ :: resultsFrom parse net (i + 1) rest

/-- The result-merge step of `checkAllURLs` (url.controller.js:46-51) and
`performScheduledCheck` (scheduler.js:31-36): zip the probed statuses and
notes back onto the records, stamping the current time. -/
def mergeResults (urls : List URLRecord) (results : List NamedResult)
    (now : String) : List URLRecord :=
  List.zipWith (fun u r => ⟨u.url, r.status, now, r.notes⟩) urls results

/-- One operation a check cycle performs against the URL table. -/
inductive StoreOp where
  | readTable (table : List URLRecord)
  | probe (url : String)
  | writeTable (table : List URLRecord)
deriving DecidableEq

/-- The sequence of table operations performed by one check cycle
(`checkAllURLs` / `performScheduledCheck`): `readAllURLs`; on an empty table
return early; otherwise probe every record in order, and only after the last
probe call `writeAllURLs` once with the merged records. -/
def cycleTrace (parse : String → ParseResult) (net : Nat → HttpOutcome)
    (now : String) (table : List URLRecord) : List StoreOp :=
  StoreOp.readTable table ::
    (if table.length = 0 then []
     else
       (table.map fun u => StoreOp.probe u.url) ++
         (match checkMultipleURLs parse net 0 table with
          | .error _ => []
          | .ok results => [StoreOp.writeTable (mergeResults table results now)]))

/-- The table contents after running a sequence of store operations from
initial contents `init`: only `writeTable` changes the table. -/
def tableAfter (init : List URLRecord) : List StoreOp → List URLRecord
  | [] => init
  | op :: rest =>
    match op with
    | .writeTable t => tableAfter t rest
    | _ => tableAfter init rest

/-- One parsed row of the persisted CSV table as `csv-parser` delivers it to
`readAllURLs` (src/README.md, `URLModel`): a cell under each header that is
present in the file; `none` models a column absent from the file,
`some ""` an empty cell. `LastCheckedDate` is the column titled
`"Last Checked Date"`. -/
structure CsvRow where
  URL : Option String
  url : Option String
  Status : Option String
  status : Option String
  LastCheckedDate : Option String
  lastChecked : Option String
  Notes : Option String
  notes : Option String
deriving DecidableEq

/-- A record as `readAllURLs` returns it. Its `url` is `row.URL || row.url`,
which in JavaScript is `undefined` (`none`) when both cells are falsy. -/
structure ReadRecord where
  url : Option String
  status : String
  lastChecked : String
  notes : String
deriving DecidableEq

/-- The per-row body of `URLModel.readAllURLs` (src/README.md): falsy-or
column fallbacks with defaults for `status`, `lastChecked` and `notes`. -/
def readRow (row : CsvRow) : ReadRecord :=
  { url := jsOr row.URL row.url
    status := jsOrDefault (jsOr row.Status row.status) "Pending"
    lastChecked :=
      jsOrDefault (jsOr row.LastCheckedDate row.lastChecked) "Not yet checked"
    notes := jsOrDefault (jsOr row.Notes row.notes) "" }

/-- `URLModel.readAllURLs` (src/README.md) on an existing table: one
`ReadRecord` per CSV row, in file order. -/
def readAllURLs (rows : List CsvRow) : List ReadRecord :=
  rows.map readRow

/-- `URLModel.writeAllURLs` (src/README.md): replace the whole file with one
row per record under the headers `URL`, `Status`, `Last Checked Date`,
`Notes` (so the lowercase variant columns are absent). -/
def writeAllURLs (records : List URLRecord) : List CsvRow :=
  records.map fun r =>
    { URL := some r.url
      url := none
      Status := some r.status
      status := none
      LastCheckedDate := some r.lastChecked
      lastChecked := none
      Notes := some r.notes
      notes := none }

/-- The record a round-tripped input record is expected to read back as,
following the words of the spec: the same record, modulo default-filling — an
empty `status` becomes `"Pending"`, an empty `lastChecked` becomes
`"Not yet checked"`, an empty `notes` stays `""`, and `url` is carried
through unchanged. -/
def defaultFill (r : URLRecord) : ReadRecord :=
  { url := some r.url
    status := if r.status = "" then "Pending" else r.status
    lastChecked := if r.lastChecked = "" then "Not yet checked" else r.lastChecked
    notes := r.notes }

/-- One parsed row of an uploaded CSV as `uploadCSV` sees it: the five
column-name variants it probes for a URL cell. -/
structure UploadRow where
  URL : Option String
  url : Option String
  Url : Option String
  link : Option String
  Link : Option String
deriving DecidableEq

/-- The per-row data handler of `uploadCSV` (scheduler.js, second
part, lines 151-163), accumulated over all rows: pick the first truthy
column variant, keep the row only when that cell and its trimmed form are
truthy, and record the trimmed URL with the initial field values. -/
def parseUploadRows (rows : List UploadRow) : List URLRecord :=
  rows.filterMap fun row =>
    match jsOr row.URL (jsOr row.url (jsOr row.Url (jsOr row.link row.Link))) with
    | none => none
    | some u =>
      if u = "" then none
      else if jsTrim u = "" then none
      else some ⟨jsTrim u, "Pending", "Not yet checked", ""⟩

/-- The HTTP-level outcome of `uploadCSV`: a 4xx rejection with a message,
or a success reporting how many records were imported. -/
inductive UploadOutcome where
  | badRequest (httpStatus : Nat) (message : String)
  | success (count : Nat)
deriving DecidableEq

/-- `URLController.uploadCSV` (scheduler.js, second part, lines 133-208)
after a successful parse of the uploaded file, paired with the table
contents it leaves behind: zero extracted URLs or more than 1000 extracted
URLs answer 400 and leave the table as it was; otherwise `writeAllURLs`
replaces the table with the extracted records. -/
def uploadCSV (rows : List UploadRow) (table : List URLRecord) :
    UploadOutcome × List URLRecord :=
  let urls := parseUploadRows rows
  if urls.length = 0 then
    (.badRequest 400
      "No valid URLs found in the CSV file. Make sure the CSV has a \"URL\" column.",
      table)
  else if urls.length > 1000 then
    (.badRequest 400
      ("Too many URLs. Maximum 30 URLs allowed. Your file contains " ++
        toString urls.length ++ " URLs."),
      table)
  else
    (.success urls.length, urls)

/- ————————————————————————————————————————————————————————————————————— -/
/- Helper lemmas -/

theorem checkIndexation_eq_ok (parse : String → ParseResult) (url : String)
    (out : HttpOutcome) :
    checkIndexation parse url out = .ok (checkValue parse url out) := by
  unfold checkValue checkIndexation tryBlock
  cases out <;> by_cases h : isValidURL parse url <;> simp [h]

theorem classifyResponse_status (s : Nat) :
    (classifyResponse s).status = "Indexed" ∨
    (classifyResponse s).status = "Not Indexed" := by
  unfold classifyResponse
  split
  · exact Or.inl rfl
  · split
    · exact Or.inr rfl
    · split
      · exact Or.inr rfl
      · split
        · exact Or.inr rfl
        · exact Or.inr rfl

theorem handleError_status (e : JsError) :
    (handleError e).status = "Invalid URL" ∨
    (handleError e).status = "Not Indexed" := by
  unfold handleError
  split
  · exact Or.inl rfl
  · split
    · exact Or.inr rfl
    · split
      · exact Or.inl rfl
      · split
        · exact Or.inl rfl
        · exact Or.inr rfl

theorem checkValue_status (parse : String → ParseResult) (url : String)
    (out : HttpOutcome) :
    (checkValue parse url out).status = "Indexed" ∨
    (checkValue parse url out).status = "Not Indexed" ∨
    (checkValue parse url out).status = "Invalid URL" := by
  unfold checkValue checkIndexation tryBlock
  by_cases h : isValidURL parse url
  · simp only [h]
    cases out with
    | resp s =>
      rcases classifyResponse_status s with h2 | h2
      · exact Or.inl (by simpa using h2)
      · exact Or.inr (Or.inl (by simpa using h2))
    | raise e =>
      rcases handleError_status e with h2 | h2
      · exact Or.inr (Or.inr (by simpa using h2))
      · exact Or.inr (Or.inl (by simpa using h2))
  · simp [h]

theorem checkMultipleURLs_eq_ok (parse : String → ParseResult)
    (net : Nat → HttpOutcome) :
    ∀ (i : Nat) (urls : List URLRecord),
    checkMultipleURLs parse net i urls = .ok (resultsFrom parse net i urls) := by
  intro i urls
  induction urls generalizing i with
  | nil => rfl
  | cons u rest ih =>
    unfold checkMultipleURLs resultsFrom
    rw [checkIndexation_eq_ok, ih (i + 1)]

theorem resultsFrom_length (parse : String → ParseResult)
    (net : Nat → HttpOutcome) :
    ∀ (i : Nat) (urls : List URLRecord),
    (resultsFrom parse net i urls).length = urls.length := by
  intro i urls
  induction urls generalizing i with
  | nil => rfl
  | cons u rest ih => simp [resultsFrom, ih (i + 1)]

theorem resultsFrom_get (parse : String → ParseResult)
    (net : Nat → HttpOutcome) :
    ∀ (i : Nat) (urls : List URLRecord) (k : Nat) (hk : k < urls.length)
      (hk' : k < (resultsFrom parse net i urls).length),
    (resultsFrom parse net i urls).get ⟨k, hk'⟩ =
      ⟨(urls.get ⟨k, hk⟩).url,
       (checkValue parse (urls.get ⟨k, hk⟩).url (net (i + k))).status,
       (checkValue parse (urls.get ⟨k, hk⟩).url (net (i + k))).notes⟩ := by
  intro i urls
  induction urls generalizing i with
  | nil => intro k hk; exact absurd hk (by simp)
  | cons u rest ih =>
    intro k hk hk'
    cases k with
    | zero => simp [resultsFrom]
    | succ k =>
      have hr : k < rest.length := by simpa using hk
      have hr' : k < (resultsFrom parse net (i + 1) rest).length := by
        rw [resultsFrom_length]; exact hr
      have := ih (i + 1) k hr hr'
      simp only [resultsFrom, List.get_cons_succ]
      rw [this]
      have harith : i + 1 + k = i + (k + 1) := by omega
      rw [harith]

theorem tableAfter_append (init : List URLRecord) (l1 l2 : List StoreOp) :
    tableAfter init (l1 ++ l2) = tableAfter (tableAfter init l1) l2 := by
  induction l1 generalizing init with
  | nil => rfl
  | cons op rest ih => cases op <;> simp [tableAfter, ih]

theorem tableAfter_no_writes (init : List URLRecord) (ops : List StoreOp)
    (h : ∀ t, StoreOp.writeTable t ∉ ops) : tableAfter init ops = init := by
  induction ops with
  | nil => rfl
  | cons op rest ih =>
    cases op with
    | writeTable t => exact absurd (List.mem_cons_self _ _) (h t)
    | readTable t =>
      simp only [tableAfter]
      exact ih fun t ht => h t (List.mem_cons_of_mem _ ht)
    | probe u =>
      simp only [tableAfter]
      exact ih fun t ht => h t (List.mem_cons_of_mem _ ht)

theorem prefix_snoc_cases {α : Type} {p l : List α} {a : α}
    (h : p <+: l ++ [a]) : p <+: l ∨ p = l ++ [a] := by
  obtain ⟨t, ht⟩ := h
  cases t with
  | nil =>
    right
    simpa using ht
  | cons b t2 =>
    left
    have hlen : p.length ≤ l.length := by
      have := congrArg List.length ht
      simp at this
      omega
    exact List.prefix_of_prefix_length_le ⟨b :: t2, ht⟩ (List.prefix_append l [a]) hlen

theorem mem_zipWith_cases {α β γ : Type} (f : α → β → γ) :
    ∀ (l1 : List α) (l2 : List β) (x : γ), x ∈ List.zipWith f l1 l2 →
      ∃ a b, a ∈ l1 ∧ b ∈ l2 ∧ x = f a b := by
  intro l1
  induction l1 with
  | nil => intro l2 x hx; simp at hx
  | cons a l1t ih =>
    intro l2 x hx
    cases l2 with
    | nil => simp at hx
    | cons b l2t =>
      simp only [List.zipWith_cons_cons, List.mem_cons] at hx
      rcases hx with hx | hx
      · exact ⟨a, b, List.mem_cons_self _ _, List.mem_cons_self _ _, hx⟩
      · obtain ⟨a2, b2, ha, hb, hfx⟩ := ih l2t x hx
        exact ⟨a2, b2, List.mem_cons_of_mem _ ha, List.mem_cons_of_mem _ hb, hfx⟩

theorem resultsFrom_status_mem (parse : String → ParseResult)
    (net : Nat → HttpOutcome) :
    ∀ (i : Nat) (urls : List URLRecord) (r : NamedResult),
    r ∈ resultsFrom parse net i urls →
      r.status = "Indexed" ∨ r.status = "Not Indexed" ∨
      r.status = "Invalid URL" := by
  intro i urls
  induction urls generalizing i with
  | nil => intro r hr; simp [resultsFrom] at hr
  | cons u rest ih =>
    intro r hr
    simp only [resultsFrom, List.mem_cons] at hr
    rcases hr with hr | hr
    · subst hr
      exact checkValue_status parse u.url (net i)
    · exact ih (i + 1) r hr

theorem readRow_of_write (r : URLRecord) (h : r.url ≠ "") :
    readRow
      { URL := some r.url, url := none, Status := some r.status, status := none,
        LastCheckedDate := some r.lastChecked, lastChecked := none,
        Notes := some r.notes, notes := none } = defaultFill r := by
  unfold readRow defaultFill jsOr jsOrDefault
  simp only [ReadRecord.mk.injEq]
  refine ⟨?_, ?_, ?_, ?_⟩
  · simp [h]
  · by_cases hs : r.status = "" <;> simp [hs]
  · by_cases hs : r.lastChecked = "" <;> simp [hs]
  · by_cases hs : r.notes = "" <;> simp [hs]

/- ————————————————————————————————————————————————————————————————————— -/
/- Claim theorems -/

/-- C1: for every URL accepted by `isValidURL`, when the HTTP GET yields a
response with status code s < 500, `checkIndexation` classifies by this
exact precedence: 200 → Indexed with a note carrying the code; 404 → Not
Indexed, page not found; 403 → Not Indexed, access forbidden; any other
s ≥ 400 → Not Indexed, client error with the code; any remaining s → Not
Indexed, unusual status with the code. -/
theorem C1_response_classification (parse : String → ParseResult)
    (u : String) (s : Nat)
    (hval : isValidURL parse u = true) (hs : s < 500) :
    (s = 200 → checkIndexation parse u (.resp s) =
      .ok ⟨"Indexed", "HTTP " ++ toString s ++ " - Page accessible"⟩) ∧
    (s = 404 → checkIndexation parse u (.resp s) =
      .ok ⟨"Not Indexed", "HTTP 404 - Page not found"⟩) ∧
    (s = 403 → checkIndexation parse u (.resp s) =
      .ok ⟨"Not Indexed", "HTTP 403 - Access forbidden"⟩) ∧
    (s ≠ 200 → s ≠ 404 → s ≠ 403 → 400 ≤ s → checkIndexation parse u (.resp s) =
      .ok ⟨"Not Indexed", "HTTP " ++ toString s ++ " - Client error"⟩) ∧
    (s ≠ 200 → s ≠ 404 → s ≠ 403 → s < 400 → checkIndexation parse u (.resp s) =
      .ok ⟨"Not Indexed", "HTTP " ++ toString s ++ " - Unusual status"⟩) := by
  have hck : checkIndexation parse u (.resp s) = .ok (classifyResponse s) := by
    unfold checkIndexation tryBlock
    simp [hval]
  rw [hck]
  refine ⟨?_, ?_, ?_, ?_, ?_⟩
  · intro h1
    subst h1
    simp [classifyResponse]
  · intro h1
    subst h1
    simp [classifyResponse]
  · intro h1
    subst h1
    simp [classifyResponse]
  · intro h1 h2 h3 h4
    simp [classifyResponse, h1, h2, h3, h4]
  · intro h1 h2 h3 h4
    have h5 : ¬ (400 ≤ s) := by omega
    simp [classifyResponse, h1, h2, h3, h5]

/-- Witness for C1 at a concrete valid URL receiving a 404 response. -/
theorem C1_response_classification_witness :
    isValidURL (fun _ => ParseResult.ok "http:" "example.com")
      "http://example.com" = true ∧
    (404 : Nat) < 500 ∧
    checkIndexation (fun _ => ParseResult.ok "http:" "example.com")
      "http://example.com" (.resp 404) =
      .ok ⟨"Not Indexed", "HTTP 404 - Page not found"⟩ :=
  ⟨by decide, by decide,
    (C1_response_classification (fun _ => ParseResult.ok "http:" "example.com")
      "http://example.com" 404 (by decide) (by decide)).2.1 rfl⟩

/-- C2: for every URL accepted by `isValidURL`, when the HTTP GET raises,
`checkIndexation` maps the failure kind in this order: ENOTFOUND → Invalid
URL, domain does not exist; ETIMEDOUT or a message containing "timeout" →
Not Indexed, connection timeout; ECONNREFUSED → Invalid URL, connection
refused; a message containing "Invalid URL" → Invalid URL, malformed URL;
anything else → Not Indexed with "Error: " plus the first 50 characters of
the message. -/
theorem C2_error_classification (parse : String → ParseResult)
    (u : String) (e : JsError) (hval : isValidURL parse u = true) :
    (e.code = some "ENOTFOUND" → checkIndexation parse u (.raise e) =
      .ok ⟨"Invalid URL", "DNS not found - Domain does not exist"⟩) ∧
    (e.code ≠ some "ENOTFOUND" →
      (e.code = some "ETIMEDOUT" ∨ includesSub e.message "timeout" = true) →
      checkIndexation parse u (.raise e) =
        .ok ⟨"Not Indexed", "Connection timeout"⟩) ∧
    (e.code ≠ some "ENOTFOUND" → e.code ≠ some "ETIMEDOUT" →
      includesSub e.message "timeout" = false → e.code = some "ECONNREFUSED" →
      checkIndexation parse u (.raise e) =
        .ok ⟨"Invalid URL", "Connection refused"⟩) ∧
    (e.code ≠ some "ENOTFOUND" → e.code ≠ some "ETIMEDOUT" →
      includesSub e.message "timeout" = false → e.code ≠ some "ECONNREFUSED" →
      includesSub e.message "Invalid URL" = true →
      checkIndexation parse u (.raise e) =
        .ok ⟨"Invalid URL", "Malformed URL"⟩) ∧
    (e.code ≠ some "ENOTFOUND" → e.code ≠ some "ETIMEDOUT" →
      includesSub e.message "timeout" = false → e.code ≠ some "ECONNREFUSED" →
      includesSub e.message "Invalid URL" = false →
      checkIndexation parse u (.raise e) =
        .ok ⟨"Not Indexed", "Error: " ++ jsSubstring e.message 50⟩) := by
  have hck : checkIndexation parse u (.raise e) = .ok (handleError e) := by
    unfold checkIndexation tryBlock
    simp [hval]
  rw [hck]
  refine ⟨?_, ?_, ?_, ?_, ?_⟩
  · intro h1
    simp [handleError, h1]
  · intro h1 h2
    rcases h2 with h2 | h2 <;> simp [handleError, h1, h2]
  · intro h1 h2 h3 h4
    simp [handleError, h1, h2, h3, h4]
  · intro h1 h2 h3 h4 h5
    simp [handleError, h1, h2, h3, h4, h5]
  · intro h1 h2 h3 h4 h5
    simp [handleError, h1, h2, h3, h4, h5]

/-- Witness for C2 at a concrete valid URL and a DNS failure. -/
theorem C2_error_classification_witness :
    isValidURL (fun _ => ParseResult.ok "http:" "example.com")
      "http://example.com" = true ∧
    checkIndexation (fun _ => ParseResult.ok "http:" "example.com")
      "http://example.com"
      (.raise ⟨some "ENOTFOUND", "getaddrinfo ENOTFOUND example.com"⟩) =
      .ok ⟨"Invalid URL", "DNS not found - Domain does not exist"⟩ :=
  ⟨by decide,
    (C2_error_classification (fun _ => ParseResult.ok "http:" "example.com")
      "http://example.com"
      ⟨some "ENOTFOUND", "getaddrinfo ENOTFOUND example.com"⟩
      (by decide)).1 rfl⟩

/-- C3: for every input string and every behaviour of the HTTP layer,
`checkIndexation` never propagates an exception: it always settles with an
ok classified result. -/
theorem C3_never_raises (parse : String → ParseResult) (u : String)
    (out : HttpOutcome) :
    ∃ r : CheckResult, checkIndexation parse u out = Except.ok r :=
  ⟨checkValue parse u out, checkIndexation_eq_ok parse u out⟩

/-- C4: `checkMultipleURLs` settles with a result list of exactly the input
length, positionally aligned: the k-th result carries the k-th input url
and the status and notes `checkIndexation` produces for that url at loop
position k. Holds for every input, including the empty list. -/
theorem C4_batch_alignment (parse : String → ParseResult)
    (net : Nat → HttpOutcome) (urls : List URLRecord) :
    ∃ rs : List NamedResult,
      checkMultipleURLs parse net 0 urls = Except.ok rs ∧
      rs.length = urls.length ∧
      ∀ (k : Nat) (hk : k < urls.length) (hk2 : k < rs.length),
        rs.get ⟨k, hk2⟩ =
          ⟨(urls.get ⟨k, hk⟩).url,
           (checkValue parse (urls.get ⟨k, hk⟩).url (net k)).status,
           (checkValue parse (urls.get ⟨k, hk⟩).url (net k)).notes⟩ := by
  refine ⟨resultsFrom parse net 0 urls, checkMultipleURLs_eq_ok parse net 0 urls,
    resultsFrom_length parse net 0 urls, ?_⟩
  intro k hk hk2
  have := resultsFrom_get parse net 0 urls k hk hk2
  simpa using this

/-- Witness for C4 on a concrete two-element input. -/
theorem C4_batch_alignment_witness :
    ∃ rs : List NamedResult,
      checkMultipleURLs (fun _ => ParseResult.ok "http:" "a")
        (fun _ => HttpOutcome.resp 200) 0
        [⟨"http://a", "Pending", "never", ""⟩,
         ⟨"http://b", "Pending", "never", ""⟩] = Except.ok rs ∧
      rs.length = 2 ∧
      ∀ (hk2 : 0 < rs.length),
        (rs.get ⟨0, hk2⟩).url = "http://a" := by
  obtain ⟨rs, h1, h2, h3⟩ := C4_batch_alignment
    (fun _ => ParseResult.ok "http:" "a") (fun _ => HttpOutcome.resp 200)
    [⟨"http://a", "Pending", "never", ""⟩, ⟨"http://b", "Pending", "never", ""⟩]
  refine ⟨rs, h1, h2, ?_⟩
  intro hk2
  rw [h3 0 (by decide) hk2]
  rfl

/-- C5: for every string rejected by `isValidURL`, `checkIndexation`
returns status Invalid URL with notes Invalid URL format, for every
behaviour of the HTTP layer (no network call is consulted). -/
theorem C5_invalid_format (parse : String → ParseResult) (u : String)
    (hval : isValidURL parse u = false) :
    ∀ out : HttpOutcome, checkIndexation parse u out =
      .ok ⟨"Invalid URL", "Invalid URL format"⟩ := by
  intro out
  unfold checkIndexation
  simp [hval]

/-- Witness for C5 at a concrete unparseable string. -/
theorem C5_invalid_format_witness :
    isValidURL (fun _ => ParseResult.fail) "not-a-url" = false ∧
    checkIndexation (fun _ => ParseResult.fail) "not-a-url"
      (.resp 200) = .ok ⟨"Invalid URL", "Invalid URL format"⟩ :=
  ⟨by decide, C5_invalid_format (fun _ => ParseResult.fail) "not-a-url"
    (by decide) (.resp 200)⟩

/-- C6: `isValidURL` is a pure total Boolean function: false on parse
failure; false when the parsed protocol is neither http nor https; false
when the hostname is empty or contains a space; true otherwise; and
whenever it is true the string parsed with an http or https scheme. -/
theorem C6_isValidURL_spec (parse : String → ParseResult) (u : String) :
    (parse u = ParseResult.fail → isValidURL parse u = false) ∧
    (∀ p h, parse u = ParseResult.ok p h → p ≠ "http:" → p ≠ "https:" →
      isValidURL parse u = false) ∧
    (∀ p h, parse u = ParseResult.ok p h →
      (h = "" ∨ h.data.contains ' ' = true) → isValidURL parse u = false) ∧
    (∀ p h, parse u = ParseResult.ok p h → (p = "http:" ∨ p = "https:") →
      h ≠ "" → h.data.contains ' ' = false → isValidURL parse u = true) ∧
    (isValidURL parse u = true →
      ∃ h2, parse u = ParseResult.ok "http:" h2 ∨
        parse u = ParseResult.ok "https:" h2) := by
  refine ⟨?_, ?_, ?_, ?_, ?_⟩
  · intro hp
    unfold isValidURL
    rw [hp]
  · intro p h hp hph hps
    unfold isValidURL
    rw [hp]
    simp [hph, hps]
  · intro p h hp hh
    unfold isValidURL
    rw [hp]
    rcases hh with hh | hh
    · simp [hh]
    · have hmem : ' ' ∈ h.data := by simpa using hh
      simp [hmem]
  · intro p h hp hph hh hsp
    unfold isValidURL
    rw [hp]
    have hnmem : ' ' ∉ h.data := by simpa using hsp
    rcases hph with hph | hph <;> simp [hph, hh, hnmem]
  · intro hv
    unfold isValidURL at hv
    cases hp : parse u with
    | fail => rw [hp] at hv; simp at hv
    | ok p h =>
      rw [hp] at hv
      by_cases hph : p = "http:"
      · exact ⟨h, Or.inl (by rw [hph])⟩
      · by_cases hps : p = "https:"
        · exact ⟨h, Or.inr (by rw [hps])⟩
        · simp [hph, hps] at hv

/-- Witness for C6: a parse with an ftp scheme is rejected. -/
theorem C6_isValidURL_spec_witness :
    isValidURL (fun _ => ParseResult.ok "ftp:" "example.com")
      "ftp://example.com" = false :=
  (C6_isValidURL_spec (fun _ => ParseResult.ok "ftp:" "example.com")
    "ftp://example.com").2.1 "ftp:" "example.com" rfl (by decide) (by decide)

/-- C7: the check cycle is atomic with respect to the table. After any
prefix of its operation sequence (an exception truncates the sequence at
the point of failure) the table still holds its prior contents, unless the
prefix is the complete sequence; and the complete sequence — whose single
write comes only after all probes — leaves the table rewritten with the
merged records. -/
theorem C7_cycle_atomic (parse : String → ParseResult)
    (net : Nat → HttpOutcome) (now : String) (table : List URLRecord)
    (p : List StoreOp) (hp : p <+: cycleTrace parse net now table) :
    (p ≠ cycleTrace parse net now table → tableAfter table p = table) ∧
    tableAfter table (cycleTrace parse net now table) =
      mergeResults table (resultsFrom parse net 0 table) now := by
  have htr : cycleTrace parse net now table =
      StoreOp.readTable table ::
        (if table.length = 0 then []
         else (table.map fun u => StoreOp.probe u.url) ++
           [StoreOp.writeTable
             (mergeResults table (resultsFrom parse net 0 table) now)]) := by
    unfold cycleTrace
    rw [checkMultipleURLs_eq_ok]
  by_cases h0 : table.length = 0
  · have htab : table = [] := List.length_eq_zero.mp h0
    subst htab
    have htr2 : cycleTrace parse net now [] = [StoreOp.readTable []] := by
      rw [htr]
      rfl
    rw [htr2] at hp ⊢
    constructor
    · intro hne
      rcases List.prefix_cons_iff.mp hp with rfl | ⟨t, rfl, ht⟩
      · rfl
      · have ht2 : t = [] := List.prefix_nil.mp ht
        subst ht2
        exact absurd rfl hne
    · rfl
  · rw [htr] at hp ⊢
    rw [if_neg h0] at hp ⊢
    have hnw : ∀ t2, StoreOp.writeTable t2 ∉
        (table.map fun u => StoreOp.probe u.url) := by
      intro t2 hmem
      simp only [List.mem_map] at hmem
      obtain ⟨u, _, hu⟩ := hmem
      exact StoreOp.noConfusion hu
    constructor
    · intro hne
      rcases List.prefix_cons_iff.mp hp with rfl | ⟨t, rfl, ht⟩
      · rfl
      · rcases prefix_snoc_cases ht with htp | rfl
        · have hnwt : ∀ t2, StoreOp.writeTable t2 ∉ t := by
            intro t2 hmem
            exact hnw t2 (htp.subset hmem)
          have hstep : tableAfter table (StoreOp.readTable table :: t) =
              tableAfter table t := rfl
          rw [hstep]
          exact tableAfter_no_writes table t hnwt
        · exact absurd rfl hne
    · have hstep : tableAfter table (StoreOp.readTable table ::
          ((table.map fun u => StoreOp.probe u.url) ++
            [StoreOp.writeTable
              (mergeResults table (resultsFrom parse net 0 table) now)])) =
          tableAfter table
            ((table.map fun u => StoreOp.probe u.url) ++
              [StoreOp.writeTable
                (mergeResults table (resultsFrom parse net 0 table) now)]) := rfl
      rw [hstep, tableAfter_append, tableAfter_no_writes table _ hnw]
      rfl

/-- Witness for C7 on a one-record table with a prefix that stops before
the write. -/
theorem C7_cycle_atomic_witness :
    tableAfter [⟨"http://a", "Pending", "never", ""⟩]
      [StoreOp.readTable [⟨"http://a", "Pending", "never", ""⟩]] =
      [⟨"http://a", "Pending", "never", ""⟩] ∧
    tableAfter [⟨"http://a", "Pending", "never", ""⟩]
      (cycleTrace (fun _ => ParseResult.ok "http:" "a")
        (fun _ => HttpOutcome.resp 200) "now"
        [⟨"http://a", "Pending", "never", ""⟩]) =
      mergeResults [⟨"http://a", "Pending", "never", ""⟩]
        (resultsFrom (fun _ => ParseResult.ok "http:" "a")
          (fun _ => HttpOutcome.resp 200) 0
          [⟨"http://a", "Pending", "never", ""⟩]) "now" := by
  have h := C7_cycle_atomic (fun _ => ParseResult.ok "http:" "a")
    (fun _ => HttpOutcome.resp 200) "now"
    [⟨"http://a", "Pending", "never", ""⟩]
    [StoreOp.readTable [⟨"http://a", "Pending", "never", ""⟩]]
    (by decide)
  exact ⟨h.1 (by decide), h.2⟩

/-- C8 counterexample: a record with an empty url does not round-trip as
claimed — the falsy-or in `readAllURLs` turns the empty url cell into an
undefined url (`none`), so the read-back record differs from the
default-filled original, whose url the claim says is carried through. -/
theorem C8_roundtrip_counterexample :
    readAllURLs (writeAllURLs [⟨"", "a", "b", "c"⟩]) ≠
      [defaultFill ⟨"", "a", "b", "c"⟩] := by
  decide

/-- C8 (amended): for every sequence of records whose urls are nonempty,
`writeAllURLs` followed by `readAllURLs` returns the same records in the
same order, modulo default-filling: an empty status reads back as Pending,
an empty lastChecked as Not yet checked, and notes unchanged (empty stays
empty). -/
theorem C8_roundtrip (records : List URLRecord)
    (h : ∀ r ∈ records, r.url ≠ "") :
    readAllURLs (writeAllURLs records) = records.map defaultFill := by
  unfold readAllURLs writeAllURLs
  rw [List.map_map]
  exact List.map_congr_left fun r hr => readRow_of_write r (h r hr)

/-- Witness for C8 on a one-record table with empty optional fields. -/
theorem C8_roundtrip_witness :
    (∀ r ∈ [(⟨"http://a", "", "", ""⟩ : URLRecord)], r.url ≠ "") ∧
    readAllURLs (writeAllURLs [⟨"http://a", "", "", ""⟩]) =
      [⟨some "http://a", "Pending", "Not yet checked", ""⟩] := by
  refine ⟨by decide, ?_⟩
  rw [C8_roundtrip [⟨"http://a", "", "", ""⟩] (by decide)]
  rfl

/-- C9: `uploadCSV` enforces the record-count bounds: zero extracted URL
rows or more than 1000 of them answer HTTP 400 and leave the table
unchanged; otherwise the table is replaced wholesale by the extracted
records, each initialized Pending / Not yet checked / empty notes. -/
theorem C9_upload_bounds (rows : List UploadRow) (table : List URLRecord) :
    ((parseUploadRows rows).length = 0 ∨ (parseUploadRows rows).length > 1000 →
      ∃ m, uploadCSV rows table = (.badRequest 400 m, table)) ∧
    ((parseUploadRows rows).length ≠ 0 → (parseUploadRows rows).length ≤ 1000 →
      uploadCSV rows table =
        (.success (parseUploadRows rows).length, parseUploadRows rows) ∧
      ∀ r ∈ parseUploadRows rows,
        r.status = "Pending" ∧ r.lastChecked = "Not yet checked" ∧
        r.notes = "") := by
  constructor
  · intro hcase
    unfold uploadCSV
    rcases hcase with h | h
    · refine ⟨"No valid URLs found in the CSV file. Make sure the CSV has a \"URL\" column.", ?_⟩
      simp [h]
    · refine ⟨"Too many URLs. Maximum 30 URLs allowed. Your file contains " ++
        toString (parseUploadRows rows).length ++ " URLs.", ?_⟩
      have h0 : ¬ (parseUploadRows rows).length = 0 := by omega
      simp [h0, h]
  · intro h1 h2
    constructor
    · unfold uploadCSV
      have h3 : ¬ (parseUploadRows rows).length > 1000 := by omega
      simp [h1, h3]
    · intro r hr
      unfold parseUploadRows at hr
      obtain ⟨row, _, hf⟩ := List.mem_filterMap.mp hr
      cases hj : jsOr row.URL (jsOr row.url (jsOr row.Url (jsOr row.link row.Link))) with
      | none =>
        rw [hj] at hf
        exact absurd hf (by simp)
      | some u =>
        rw [hj] at hf
        have hf2 : (if u = "" then none
            else if jsTrim u = "" then none
            else some (⟨jsTrim u, "Pending", "Not yet checked", ""⟩ : URLRecord)) =
            some r := hf
        by_cases hu : u = ""
        · rw [if_pos hu] at hf2
          exact absurd hf2 (by simp)
        · rw [if_neg hu] at hf2
          by_cases htu : jsTrim u = ""
          · rw [if_pos htu] at hf2
            exact absurd hf2 (by simp)
          · rw [if_neg htu] at hf2
            have hr2 : (⟨jsTrim u, "Pending", "Not yet checked", ""⟩ : URLRecord) = r :=
              Option.some.inj hf2
            rw [← hr2]
            exact ⟨rfl, rfl, rfl⟩

/-- Witness for C9: a single-row upload with a padded URL cell replaces the
table with one Pending record. -/
theorem C9_upload_bounds_witness :
    uploadCSV [⟨some " http://a ", none, none, none, none⟩] [] =
      (.success 1, [⟨"http://a", "Pending", "Not yet checked", ""⟩]) ∧
    parseUploadRows [⟨some " http://a ", none, none, none, none⟩] =
      [⟨"http://a", "Pending", "Not yet checked", ""⟩] := by
  have hp : parseUploadRows [⟨some " http://a ", none, none, none, none⟩] =
      [⟨"http://a", "Pending", "Not yet checked", ""⟩] := by decide
  have h1 := ((C9_upload_bounds [⟨some " http://a ", none, none, none, none⟩]
    []).2 (by decide) (by decide)).1
  rw [hp] at h1
  exact ⟨h1, hp⟩

/-- C10: every result of `checkIndexation` carries one of exactly three
status labels — Indexed, Not Indexed, Invalid URL — never Pending; and
consequently every record merged back into the table by a completed check
cycle carries one of those three labels. -/
theorem C10_status_labels (parse : String → ParseResult) (u : String)
    (out : HttpOutcome) (net : Nat → HttpOutcome) (now : String)
    (urls : List URLRecord) :
    (∀ r : CheckResult, checkIndexation parse u out = Except.ok r →
      (r.status = "Indexed" ∨ r.status = "Not Indexed" ∨
        r.status = "Invalid URL") ∧ r.status ≠ "Pending") ∧
    (∀ results : List NamedResult,
      checkMultipleURLs parse net 0 urls = Except.ok results →
      ∀ rec ∈ mergeResults urls results now,
        (rec.status = "Indexed" ∨ rec.status = "Not Indexed" ∨
          rec.status = "Invalid URL") ∧ rec.status ≠ "Pending") := by
  constructor
  · intro r hr
    rw [checkIndexation_eq_ok] at hr
    have hr2 : checkValue parse u out = r := Except.ok.inj hr
    rw [← hr2]
    rcases checkValue_status parse u out with h | h | h <;>
      exact ⟨by tauto, by rw [h]; decide⟩
  · intro results hres rec hmem
    rw [checkMultipleURLs_eq_ok] at hres
    have hres2 : resultsFrom parse net 0 urls = results := Except.ok.inj hres
    rw [← hres2] at hmem
    unfold mergeResults at hmem
    obtain ⟨a, b, _, hb, heq⟩ := mem_zipWith_cases _ urls
      (resultsFrom parse net 0 urls) rec hmem
    have hst : rec.status = b.status := by rw [heq]
    rw [hst]
    rcases resultsFrom_status_mem parse net 0 urls b hb with h | h | h <;>
      exact ⟨by tauto, by rw [h]; decide⟩

/-- Witness for C10 at a concrete Indexed result. -/
theorem C10_status_labels_witness :
    ((checkValue (fun _ => ParseResult.ok "http:" "a") "http://a"
        (.resp 200)).status = "Indexed" ∨
     (checkValue (fun _ => ParseResult.ok "http:" "a") "http://a"
        (.resp 200)).status = "Not Indexed" ∨
     (checkValue (fun _ => ParseResult.ok "http:" "a") "http://a"
        (.resp 200)).status = "Invalid URL") ∧
    (checkValue (fun _ => ParseResult.ok "http:" "a") "http://a"
      (.resp 200)).status ≠ "Pending" :=
  (C10_status_labels (fun _ => ParseResult.ok "http:" "a") "http://a"
    (.resp 200) (fun _ => HttpOutcome.resp 200) "now" []).1
    (checkValue (fun _ => ParseResult.ok "http:" "a") "http://a" (.resp 200))
    (checkIndexation_eq_ok (fun _ => ParseResult.ok "http:" "a") "http://a"
      (.resp 200))
